import Mathlib

/-
Shallow embedding of the Legend-of-Adventure server internals.

Each definition mirrors a function of the Python source (file and symbol
named in its doc comment).  Machine-level caveats of the modelling:
  * Python dicts that map slot indices / guids to values are modelled as
    association lists (`List (key × value)`); insertion replaces an
    existing binding in place or appends a fresh one, which matches dict
    assignment up to iteration order.
  * Fallible Python operations (KeyError, IndexError, ValueError,
    AssertionError) are modelled with `Option`: `none` is an uncaught
    exception.
  * Floating-point distances are modelled with exact rationals; square
    roots only ever occur truncated to an integer, for which
    `Nat.sqrt ∘ Rat.floor` is exact (⌊√q⌋ = ⌊√⌊q⌋⌋ for q ≥ 0).
  * Wire messages and guids are `List Char` (the code only ever splits
    and compares them, which is structural on the character list).
-/

/-! ## Configuration constants (src/internals/constants.py) -/

def tilesize : ℕ := 50

def level_width : ℕ := 75

def level_height : ℕ := 75

def PLAYER_RANGES : ℕ := 3

/-- constants.CHAT_DISTANCE: distance a player can hear chat from (tiles). -/
def CHAT_DISTANCE : ℚ := 8

/-- constants.FLEE_DISTANCE: distance an attack startles an entity from (tiles). -/
def FLEE_DISTANCE : ℚ := 15

/-- constants.CHASE_DISTANCE: distance a hostile mob notices a target from (tiles). -/
def CHASE_DISTANCE : ℚ := 25

/-- constants.HURT_DISTANCE: distance an attack hurts from (tiles). -/
def HURT_DISTANCE : ℚ := 1

/-! ## Association-list model of Python dicts -/

/-- Python `d[k]` / `k in d` lookup on a slot-indexed dict. -/
def dictLookup {α : Type} (d : List (ℕ × α)) (k : ℕ) : Option α :=
  match d with
  | [] => none
  | (k0, v0) :: rest => if k0 = k then some v0 else dictLookup rest k

/-- Python `d[k] = v` assignment: replace an existing binding or append. -/
def dictInsert {α : Type} (d : List (ℕ × α)) (k : ℕ) (v : α) : List (ℕ × α) :=
  match d with
  | [] => [(k, v)]
  | (k0, v0) :: rest =>
      if k0 = k then (k0, v) :: rest else (k0, v0) :: dictInsert rest k v

/-- Canonical compact dict `{k ↦ vs[0], k+1 ↦ vs[1], …}` used to state the
slot-compactness invariant. -/
def enumFrom {α : Type} (k : ℕ) : List α → List (ℕ × α)
  | [] => []
  | v :: vs => (k, v) :: enumFrom (k + 1) vs

/-! ## InventoryManager (src/internals/inventory.py) -/

/-- InventoryManager.registered: seeds slot 0 with a sharp sword variant and
slot 1 with item code f5 (the client push is not part of the dict state). -/
def registered (d : List (ℕ × String)) : List (ℕ × String) :=
  dictInsert (dictInsert d 0 "wsw.sharp.12") 1 "f5"

/-- InventoryManager.inventory_full: `len(self.inventory) == 5`. -/
def inventory_full (d : List (ℕ × String)) : Bool :=
  d.length = 5

/-- Loop body of InventoryManager.give_item: `for i in range(5)`, skip
occupied slots, insert the item at the first free slot and return True.
Falling off the loop returns Python `None`, modelled as `false`. -/
def giveItemLoop (d : List (ℕ × String)) (code : String) :
    List ℕ → List (ℕ × String) × Bool
  | [] => (d, false)
  | i :: is =>
      match dictLookup d i with
      | some _ => giveItemLoop d code is
      | none => (dictInsert d i code, true)

/-- InventoryManager.give_item: reject when full, otherwise insert at the
lowest free slot among 0–4. -/
def give_item (d : List (ℕ × String)) (code : String) :
    List (ℕ × String) × Bool :=
  if inventory_full d then (d, false)
  else giveItemLoop d code [0, 1, 2, 3, 4]

/-- InventoryManager.use_item never assigns to `self.inventory`; it only
publishes a hit event and echoes a chat line, so the dict is unchanged. -/
def use_item (d : List (ℕ × String)) (_slot : ℕ) : List (ℕ × String) :=
  d

/-- Rebuild loop of InventoryManager.drop_item:
`for i in range(len(inventory)): if i == slot: continue;
new_inv[len(new_inv)] = inventory[i]` — the lookup raises KeyError
when the slot numbering is not compact. -/
def dropLoop (d : List (ℕ × String)) (slot : ℕ) :
    List ℕ → List (ℕ × String) → Option (List (ℕ × String))
  | [], acc => some acc
  | i :: is, acc =>
      if i = slot then dropLoop d slot is acc
      else
        match dictLookup d i with
        | none => none
        | some v => dropLoop d slot is (dictInsert acc acc.length v)

/-- InventoryManager.drop_item restricted to its inventory effect: missing
slot is a silent no-op; with `update=True` the remaining items are
renumbered 0..n-2 (the drop-point arithmetic and the global drop event do
not touch the dict). -/
def drop_item (d : List (ℕ × String)) (slot : ℕ) (update : Bool) :
    Option (List (ℕ × String)) :=
  match dictLookup d slot with
  | none => some d
  | some _ => if update then dropLoop d slot (List.range d.length) [] else some d

/-- Loop body of InventoryManager.cycle_items:
`new_inv[i] = inventory[(i + direction) % count]` for `i in range(count)`;
a missing source slot raises KeyError. -/
def cycleLoop (d : List (ℕ × String)) (dir : ℤ) (count : ℕ) :
    List ℕ → List (ℕ × String) → Option (List (ℕ × String))
  | [], acc => some acc
  | i :: is, acc =>
      match dictLookup d (((i : ℤ) + dir).emod (count : ℤ)).toNat with
      | none => none
      | some v => cycleLoop d dir count is (dictInsert acc i v)

/-- InventoryManager.cycle_items: rotate over `count = len(self.inventory)`
slots (note: the occupied count, not the full 5-slot range);
direction "b" is backward (-1), anything else forward (+1). -/
def cycle_items (d : List (ℕ × String)) (direction : String) :
    Option (List (ℕ × String)) :=
  let dir : ℤ := if direction = "b" then -1 else 1
  let count := d.length
  cycleLoop d dir count (List.range count) []

/-- InventoryManager.empty_inventory: `self.inventory = {}`. -/
def empty_inventory : List (ℕ × String) :=
  []

/-- Spec invariant on the inventory dict: occupied slot indices are exactly
0..n-1 for the current item count n, with n at most 5. -/
def SlotsCompact (d : List (ℕ × String)) : Prop :=
  d.map Prod.fst = List.range d.length ∧ d.length ≤ 5

/-! ## Dict/compactness infrastructure -/

lemma enumFrom_length {α : Type} (vs : List α) : ∀ k, (enumFrom k vs).length = vs.length := by
  induction vs with
  | nil => intro k; rfl
  | cons v tl ih => intro k; simp [enumFrom, ih]

lemma enumFrom_map_fst {α : Type} (vs : List α) :
    ∀ k, (enumFrom k vs).map Prod.fst = List.range' k vs.length := by
  induction vs with
  | nil => intro k; rfl
  | cons v tl ih => intro k; simp [enumFrom, ih, List.range'_succ]

lemma eq_enumFrom_of_map_fst {α : Type} :
    ∀ (d : List (ℕ × α)) (k : ℕ), d.map Prod.fst = List.range' k d.length →
      d = enumFrom k (d.map Prod.snd) := by
  intro d
  induction d with
  | nil => intro k _; rfl
  | cons p tl ih =>
      intro k h
      obtain ⟨a, b⟩ := p
      simp only [List.map_cons, List.length_cons, List.range'_succ] at h
      obtain ⟨ha, htl⟩ := List.cons_eq_cons.mp h
      subst ha
      simpa [enumFrom] using ih (a + 1) htl

lemma slotsCompact_enumFrom (vs : List String) (h : vs.length ≤ 5) :
    SlotsCompact (enumFrom 0 vs) := by
  constructor
  · rw [enumFrom_map_fst, enumFrom_length, List.range_eq_range']
  · rw [enumFrom_length]; exact h

lemma slotsCompact_shape (d : List (ℕ × String)) (h : SlotsCompact d) :
    ∃ vs : List String, d = enumFrom 0 vs ∧ vs.length ≤ 5 := by
  refine ⟨d.map Prod.snd, ?_, by simpa using h.2⟩
  exact eq_enumFrom_of_map_fst d 0 (by rw [← List.range_eq_range']; exact h.1)

lemma dictLookup_enumFrom_add {α : Type} (vs : List α) :
    ∀ (k j : ℕ), dictLookup (enumFrom k vs) (k + j) = vs.get? j := by
  induction vs with
  | nil => intro k j; rfl
  | cons v tl ih =>
      intro k j
      cases j with
      | zero => simp [enumFrom, dictLookup]
      | succ j' =>
          simp only [enumFrom, dictLookup]
          rw [if_neg (by omega : ¬ (k = k + (j' + 1)))]
          rw [show k + (j' + 1) = (k + 1) + j' from by omega, ih]
          simp

lemma dictLookup_enumFrom_ge {α : Type} (vs : List α) :
    ∀ (k i : ℕ), k + vs.length ≤ i → dictLookup (enumFrom k vs) i = none := by
  induction vs with
  | nil => intro k i _; rfl
  | cons v tl ih =>
      intro k i h
      simp only [List.length_cons] at h
      have hne : k ≠ i := by omega
      simp [enumFrom, dictLookup, hne, ih (k + 1) i (by omega)]

lemma dictInsert_enumFrom_set {α : Type} (vs : List α) :
    ∀ (k j : ℕ) (v : α), j < vs.length →
      dictInsert (enumFrom k vs) (k + j) v = enumFrom k (vs.set j v) := by
  induction vs with
  | nil => intro k j v h; simp at h
  | cons v0 tl ih =>
      intro k j v h
      cases j with
      | zero => simp [enumFrom, dictInsert]
      | succ j' =>
          have hlt : j' < tl.length := by simpa using Nat.lt_of_succ_lt_succ h
          simp only [enumFrom, dictInsert, List.set]
          rw [if_neg (by omega : ¬ (k = k + (j' + 1)))]
          rw [show k + (j' + 1) = (k + 1) + j' from by omega, ih (k + 1) j' v hlt]

lemma dictInsert_enumFrom_append {α : Type} (vs : List α) :
    ∀ (k : ℕ) (v : α),
      dictInsert (enumFrom k vs) (k + vs.length) v = enumFrom k (vs ++ [v]) := by
  induction vs with
  | nil => intro k v; simp [enumFrom, dictInsert]
  | cons v0 tl ih =>
      intro k v
      simp only [enumFrom, dictInsert, List.length_cons]
      rw [if_neg (by omega : ¬ (k = k + (tl.length + 1)))]
      rw [show k + (tl.length + 1) = (k + 1) + tl.length from by omega, ih (k + 1) v]
      simp [enumFrom]

lemma dictLookup_enum0 {α : Type} (vs : List α) (j : ℕ) :
    dictLookup (enumFrom 0 vs) j = vs.get? j := by
  simpa using dictLookup_enumFrom_add vs 0 j

lemma dictInsert_enum0_set {α : Type} (vs : List α) (j : ℕ) (v : α) (h : j < vs.length) :
    dictInsert (enumFrom 0 vs) j v = enumFrom 0 (vs.set j v) := by
  simpa using dictInsert_enumFrom_set vs 0 j v h

lemma dictInsert_enum0_append {α : Type} (vs : List α) (v : α) :
    dictInsert (enumFrom 0 vs) vs.length v = enumFrom 0 (vs ++ [v]) := by
  simpa using dictInsert_enumFrom_append vs 0 v

lemma get?_isSome_of_lt {α : Type} (vs : List α) (j : ℕ) (h : j < vs.length) :
    ∃ v, vs.get? j = some v := by
  cases hvv : vs.get? j with
  | none => exact absurd (List.get?_eq_none.mp hvv) (by omega)
  | some v => exact ⟨v, rfl⟩

lemma registered_compact (vs : List String) (h : vs.length ≤ 5) :
    SlotsCompact (registered (enumFrom 0 vs)) := by
  match vs with
  | [] => exact slotsCompact_enumFrom ["wsw.sharp.12", "f5"] (by simp)
  | [a] => exact slotsCompact_enumFrom ["wsw.sharp.12", "f5"] (by simp)
  | a :: b :: t =>
      unfold registered
      rw [dictInsert_enum0_set (a :: b :: t) 0 "wsw.sharp.12" (by simp)]
      rw [dictInsert_enum0_set _ 1 "f5" (by simp)]
      apply slotsCompact_enumFrom
      simpa using h

lemma giveItemLoop_spec (vs : List String) (code : String) :
    ∀ (m j : ℕ), j ≤ vs.length → vs.length < j + m →
      giveItemLoop (enumFrom 0 vs) code (List.range' j m)
        = (dictInsert (enumFrom 0 vs) vs.length code, true) := by
  intro m
  induction m with
  | zero => intro j h1 h2; omega
  | succ m' ih =>
      intro j h1 h2
      rw [List.range'_succ]
      cases Nat.lt_or_ge j vs.length with
      | inl hlt =>
          obtain ⟨v, hv⟩ := get?_isSome_of_lt vs j hlt
          have hlook : dictLookup (enumFrom 0 vs) j = some v := by
            rw [dictLookup_enum0, hv]
          simp only [giveItemLoop, hlook]
          exact ih (j + 1) (by omega) (by omega)
      | inr hge =>
          have hj : j = vs.length := by omega
          have hlook : dictLookup (enumFrom 0 vs) j = none := by
            rw [dictLookup_enum0, List.get?_eq_none]; omega
          simp only [giveItemLoop, hlook]
          rw [hj]

lemma give_item_compact (vs : List String) (code : String) (h : vs.length ≤ 5) :
    SlotsCompact (give_item (enumFrom 0 vs) code).1 := by
  by_cases hfull : vs.length = 5
  · have hfb : inventory_full (enumFrom 0 vs) = true := by
      simp [inventory_full, enumFrom_length, hfull]
    simp only [give_item, hfb, if_true]
    exact slotsCompact_enumFrom vs h
  · have hfb : inventory_full (enumFrom 0 vs) = false := by
      simp [inventory_full, enumFrom_length]; omega
    simp only [give_item, hfb, Bool.false_eq_true, if_false]
    rw [show [0, 1, 2, 3, 4] = List.range' 0 5 from rfl]
    rw [giveItemLoop_spec vs code 5 0 (by omega) (by omega)]
    rw [dictInsert_enum0_append]
    exact slotsCompact_enumFrom _ (by simp; omega)

lemma dropLoop_compact (vs : List String) (slot : ℕ) :
    ∀ (m j : ℕ) (ws : List String), j + m ≤ vs.length →
      ∃ us : List String,
        dropLoop (enumFrom 0 vs) slot (List.range' j m) (enumFrom 0 ws)
            = some (enumFrom 0 us)
          ∧ us.length ≤ ws.length + m := by
  intro m
  induction m with
  | zero => intro j ws _; exact ⟨ws, by simp [dropLoop], Nat.le_refl _⟩
  | succ m' ih =>
      intro j ws hle
      rw [List.range'_succ]
      by_cases hslot : j = slot
      · simp only [dropLoop, if_pos hslot]
        obtain ⟨us, h1, h2⟩ := ih (j + 1) ws (by omega)
        exact ⟨us, h1, by omega⟩
      · obtain ⟨v, hv⟩ := get?_isSome_of_lt vs j (by omega)
        have hlook : dictLookup (enumFrom 0 vs) j = some v := by
          rw [dictLookup_enum0, hv]
        have hacc : (enumFrom 0 ws).length = ws.length := enumFrom_length ws 0
        simp only [dropLoop, if_neg hslot, hlook, hacc, dictInsert_enum0_append]
        obtain ⟨us, h1, h2⟩ := ih (j + 1) (ws ++ [v]) (by omega)
        refine ⟨us, h1, ?_⟩
        simp at h2
        omega

lemma drop_item_compact (vs : List String) (slot : ℕ) (h : vs.length ≤ 5) :
    ∀ d', drop_item (enumFrom 0 vs) slot true = some d' → SlotsCompact d' := by
  intro d' hd
  unfold drop_item at hd
  rw [dictLookup_enum0] at hd
  cases hv : vs.get? slot with
  | none =>
      rw [hv] at hd
      simp only [Option.some.injEq] at hd
      subst hd
      exact slotsCompact_enumFrom vs h
  | some v =>
      rw [hv] at hd
      simp only [if_true] at hd
      rw [enumFrom_length, List.range_eq_range'] at hd
      obtain ⟨us, h1, h2⟩ := dropLoop_compact vs slot vs.length 0 [] (by omega)
      have h1' : dropLoop (enumFrom 0 vs) slot (List.range' 0 vs.length) []
          = some (enumFrom 0 us) := h1
      rw [h1'] at hd
      simp only [Option.some.injEq] at hd
      subst hd
      simp only [List.length_nil, Nat.zero_add] at h2
      exact slotsCompact_enumFrom us (by omega)

lemma cycleLoop_compact (vs : List String) (dir : ℤ) (hpos : 0 < vs.length) :
    ∀ (m j : ℕ) (ws : List String), j = ws.length →
      ∃ us : List String,
        cycleLoop (enumFrom 0 vs) dir vs.length (List.range' j m) (enumFrom 0 ws)
            = some (enumFrom 0 us)
          ∧ us.length = ws.length + m := by
  intro m
  induction m with
  | zero => intro j ws _; exact ⟨ws, by simp [cycleLoop], by omega⟩
  | succ m' ih =>
      intro j ws hj
      rw [List.range'_succ]
      have hmodnn : 0 ≤ ((j : ℤ) + dir).emod ((vs.length : ℕ) : ℤ) :=
        Int.emod_nonneg _ (by omega)
      have hmodlt : ((j : ℤ) + dir).emod ((vs.length : ℕ) : ℤ) < ((vs.length : ℕ) : ℤ) :=
        Int.emod_lt_of_pos _ (by exact_mod_cast hpos)
      have hbound : (((j : ℤ) + dir).emod ((vs.length : ℕ) : ℤ)).toNat < vs.length := by
        omega
      obtain ⟨v, hv⟩ := get?_isSome_of_lt vs _ hbound
      have hlook : dictLookup (enumFrom 0 vs)
          ((((j : ℤ) + dir).emod ((vs.length : ℕ) : ℤ)).toNat) = some v := by
        rw [dictLookup_enum0, hv]
      simp only [cycleLoop, hlook]
      rw [hj, dictInsert_enum0_append]
      obtain ⟨us, h1, h2⟩ := ih (ws.length + 1) (ws ++ [v]) (by simp)
      refine ⟨us, h1, ?_⟩
      simp at h2
      omega

lemma cycle_items_compact (vs : List String) (h : vs.length ≤ 5) :
    ∀ (direction : String) d', cycle_items (enumFrom 0 vs) direction = some d' →
      SlotsCompact d' := by
  intro direction d' hd
  simp only [cycle_items, enumFrom_length] at hd
  rcases Nat.eq_zero_or_pos vs.length with hz | hpos
  · have hvs : vs = [] := List.length_eq_zero.mp hz
    subst hvs
    simp only [List.range_zero, cycleLoop, Option.some.injEq] at hd
    subst hd
    exact ⟨by simp, by simp⟩
  · rw [List.range_eq_range'] at hd
    obtain ⟨us, h1, h2⟩ :=
      cycleLoop_compact vs (if direction = "b" then -1 else 1) hpos vs.length 0 [] rfl
    have h1' : cycleLoop (enumFrom 0 vs) (if direction = "b" then -1 else 1) vs.length
        (List.range' 0 vs.length) [] = some (enumFrom 0 us) := h1
    rw [h1'] at hd
    simp only [Option.some.injEq] at hd
    subst hd
    simp only [List.length_nil, Nat.zero_add] at h2
    exact slotsCompact_enumFrom us (by omega)

/-- C8: every InventoryManager operation (registered, give_item, use_item,
drop_item with update=true, cycle_items, empty_inventory) preserves the
invariant that the occupied slot indices are exactly 0..n-1 for the current
item count n, with n at most 5 (failing operations, modelled as `none`,
leave no state at all, matching a raised KeyError). -/
theorem c8_slots_compact_preserved (d : List (ℕ × String)) (h : SlotsCompact d) :
    SlotsCompact (registered d) ∧
    (∀ code, SlotsCompact (give_item d code).1) ∧
    (∀ slot, SlotsCompact (use_item d slot)) ∧
    (∀ slot d', drop_item d slot true = some d' → SlotsCompact d') ∧
    (∀ direction d', cycle_items d direction = some d' → SlotsCompact d') ∧
    SlotsCompact empty_inventory := by
  obtain ⟨vs, rfl, hlen⟩ := slotsCompact_shape d h
  refine ⟨registered_compact vs hlen,
          fun code => give_item_compact vs code hlen,
          fun _ => h,
          fun slot d' => drop_item_compact vs slot hlen d',
          fun direction d' => cycle_items_compact vs hlen direction d',
          ⟨by simp [empty_inventory], by simp [empty_inventory]⟩⟩

/-- Witness for C8 at the concrete one-item inventory {0 ↦ itemA}: the
invariant holds after registered, give_item, drop_item and cycle_items. -/
theorem c8_slots_compact_preserved_witness :
    SlotsCompact (registered [(0, "itemA")]) ∧
    SlotsCompact (give_item [(0, "itemA")] "itemB").1 :=
  ⟨(c8_slots_compact_preserved [(0, "itemA")] ⟨by decide, by decide⟩).1,
   (c8_slots_compact_preserved [(0, "itemA")] ⟨by decide, by decide⟩).2.1 "itemB"⟩

/-- C7 counterexample: on a compact 2-item inventory, cycle_items rotates
over the occupied 2-slot range (count = len(inventory)), so five forward
cycles amount to a rotation by 5 mod 2 = 1 — a swap, not the identity.
The claim's "wrapping around the full 5-slot range" and the consequent
"cycle^5 == identity for every inventory state" are both false here. -/
theorem c7_cycle5_two_items_not_identity :
    ((((cycle_items [(0, "itemA"), (1, "itemB")] "f").bind
        (cycle_items · "f")).bind (cycle_items · "f")).bind
        (cycle_items · "f")).bind (cycle_items · "f")
      = some [(0, "itemB"), (1, "itemA")] ∧
    some [(0, "itemB"), (1, "itemA")]
      ≠ some [(0, "itemA"), (1, "itemB")] := by
  exact ⟨by decide, by decide⟩

lemma cycle_items_eq (d : List (ℕ × String)) (direction : String) :
    cycle_items d direction
      = cycleLoop d (if direction = "b" then -1 else 1) d.length (List.range d.length) [] :=
  rfl

lemma cycleF5 (a b c d e : String) :
    cycle_items [(0, a), (1, b), (2, c), (3, d), (4, e)] "f"
      = some [(0, b), (1, c), (2, d), (3, e), (4, a)] := by
  rw [cycle_items_eq]
  simp only [List.length_cons, List.length_nil, Nat.reduceAdd]
  rfl

lemma cycleB5 (a b c d e : String) :
    cycle_items [(0, a), (1, b), (2, c), (3, d), (4, e)] "b"
      = some [(0, e), (1, a), (2, b), (3, c), (4, d)] := by
  rw [cycle_items_eq]
  simp only [List.length_cons, List.length_nil, Nat.reduceAdd]
  rfl

/-- C7 (amended): cycle_items rotates the occupied slot range 0..n-1 (n the
current item count) by one, forward or backward; on a full 5-slot inventory
one forward cycle moves the item of slot i+1 into slot i (new[i] =
old[(i+1) mod 5]), one backward cycle is its inverse, and five consecutive
forward cycles restore the original arrangement. -/
theorem c7_cycle_full_inventory (a b c d e : String) :
    cycle_items [(0, a), (1, b), (2, c), (3, d), (4, e)] "f"
      = some [(0, b), (1, c), (2, d), (3, e), (4, a)] ∧
    cycle_items [(0, a), (1, b), (2, c), (3, d), (4, e)] "b"
      = some [(0, e), (1, a), (2, b), (3, c), (4, d)] ∧
    ((((cycle_items [(0, a), (1, b), (2, c), (3, d), (4, e)] "f").bind
        (cycle_items · "f")).bind (cycle_items · "f")).bind
        (cycle_items · "f")).bind (cycle_items · "f")
      = some [(0, a), (1, b), (2, c), (3, d), (4, e)] := by
  refine ⟨cycleF5 a b c d e, cycleB5 a b c d e, ?_⟩
  rw [cycleF5 a b c d e]
  simp only [Option.some_bind]
  rw [cycleF5 b c d e a]
  simp only [Option.some_bind]
  rw [cycleF5 c d e a b]
  simp only [Option.some_bind]
  rw [cycleF5 d e a b c]
  simp only [Option.some_bind]
  rw [cycleF5 e a b c d]

/-! ## ScheduleHelper (src/internals/entities/entities.py) -/

/-- ScheduleHelper.schedule: walk the queue and insert the new (fire-time,
callback) pair before the first entry whose fire time is at least `t`,
appending at the end otherwise (the queue is kept sorted by fire time). -/
def scheduleInsert {τ α : Type} [LinearOrder τ] (q : List (τ × α)) (t : τ) (cb : α) :
    List (τ × α) :=
  match q with
  | [] => [(t, cb)]
  | (t0, c0) :: rest =>
      if t0 ≥ t then (t, cb) :: (t0, c0) :: rest
      else (t0, c0) :: scheduleInsert rest t cb

/-- Effect of running one fired callback: callbacks are modelled by the
(absolute-deadline, callback) events they schedule during their run, which
are inserted into the live queue exactly as ScheduleHelper.schedule does. -/
def fireCallback (env : ℕ → List (ℚ × ℕ)) (q : List (ℚ × ℕ)) (cb : ℕ) :
    List (ℚ × ℕ) :=
  (env cb).foldl (fun acc e => scheduleInsert acc e.1 e.2) q

/-- Loop of ScheduleHelper.fire_events: `for i in xrange(len(queue))` with
the length captured once (`rem` counts the remaining iterations), re-reading
`queue[i]` from the live queue each iteration (`none` models the IndexError
of a vanished index); a due entry runs its callback, a future entry trims
the queue to `queue[i:]` when i > 0 and returns; a fully exhausted loop
clears the queue.  The list of fired callbacks is returned for observation. -/
def fireEventsAux (env : ℕ → List (ℚ × ℕ)) (now : ℚ) :
    ℕ → ℕ → List (ℚ × ℕ) → List ℕ → Option (List (ℚ × ℕ) × List ℕ)
  | 0, _, _q, fired => some ([], fired.reverse)
  | rem + 1, i, q, fired =>
      match q.get? i with
      | none => none
      | some (t, cb) =>
          if t ≤ now then
            fireEventsAux env now rem (i + 1) (fireCallback env q cb) (cb :: fired)
          else
            some ((if 0 < i then q.drop i else q), fired.reverse)

/-- ScheduleHelper.fire_events entry point. -/
def fire_events (env : ℕ → List (ℚ × ℕ)) (now : ℚ) (q : List (ℚ × ℕ)) :
    Option (List (ℚ × ℕ) × List ℕ) :=
  fireEventsAux env now q.length 0 q []

lemma scheduleInsert_append_due {now t : ℚ} {cb : ℕ} (B : List (ℚ × ℕ)) :
    ∀ A : List (ℚ × ℕ), (∀ p ∈ A, p.1 ≤ now) → now < t →
      scheduleInsert (A ++ B) t cb = A ++ scheduleInsert B t cb := by
  intro A
  induction A with
  | nil => intro _ _; simp
  | cons p tl ih =>
      intro hA ht
      obtain ⟨t0, c0⟩ := p
      have h0 : t0 ≤ now := hA (t0, c0) (by simp)
      simp only [List.cons_append, scheduleInsert]
      rw [if_neg (by simp; linarith)]
      simp only [List.append_eq]
      rw [ih (fun p hp => hA p (by simp [hp])) ht]

lemma mem_scheduleInsert {α : Type} {p : ℚ × α} {t : ℚ} {cb : α} :
    ∀ q : List (ℚ × α), p ∈ scheduleInsert q t cb → p ∈ q ∨ p = (t, cb) := by
  intro q
  induction q with
  | nil => intro h; simp [scheduleInsert] at h; exact Or.inr h
  | cons p0 tl ih =>
      intro h
      obtain ⟨t0, c0⟩ := p0
      simp only [scheduleInsert] at h
      by_cases hc : t0 ≥ t
      · rw [if_pos hc] at h
        rcases List.mem_cons.mp h with h1 | h2
        · exact Or.inr h1
        · exact Or.inl h2
      · rw [if_neg hc] at h
        rcases List.mem_cons.mp h with h1 | h2
        · exact Or.inl (by simp [h1])
        · rcases ih h2 with h3 | h4
          · exact Or.inl (by simp [h3])
          · exact Or.inr h4

lemma foldl_insert_append {now : ℚ} (evs : List (ℚ × ℕ)) :
    ∀ (A B : List (ℚ × ℕ)), (∀ p ∈ A, p.1 ≤ now) → (∀ p ∈ evs, now < p.1) →
      evs.foldl (fun acc e => scheduleInsert acc e.1 e.2) (A ++ B)
        = A ++ evs.foldl (fun acc e => scheduleInsert acc e.1 e.2) B := by
  induction evs with
  | nil => intro A B _ _; simp
  | cons e tl ih =>
      intro A B hA hevs
      simp only [List.foldl_cons]
      rw [scheduleInsert_append_due B A hA (hevs e (by simp))]
      exact ih A _ hA (fun p hp => hevs p (by simp [hp]))

lemma mem_foldl_insert {p : ℚ × ℕ} :
    ∀ (evs B : List (ℚ × ℕ)),
      p ∈ evs.foldl (fun acc e => scheduleInsert acc e.1 e.2) B →
      p ∈ B ∨ p ∈ evs := by
  intro evs
  induction evs with
  | nil => intro B h; exact Or.inl h
  | cons e tl ih =>
      intro B h
      simp only [List.foldl_cons] at h
      rcases ih _ h with h1 | h2
      · rcases mem_scheduleInsert B h1 with h3 | h4
        · exact Or.inl h3
        · exact Or.inr (by simp [h4])
      · exact Or.inr (by simp [h2])

lemma fireEventsAux_all_due {env : ℕ → List (ℚ × ℕ)} {now : ℚ}
    (henv : ∀ cb, ∀ p ∈ env cb, now < p.1) :
    ∀ (rest : List (ℚ × ℕ)) (done extra : List (ℚ × ℕ)) (fired : List ℕ),
      (∀ p ∈ done, p.1 ≤ now) → (∀ p ∈ rest, p.1 ≤ now) →
      (∀ p ∈ extra, now < p.1) →
      fireEventsAux env now rest.length done.length (done ++ rest ++ extra) fired
        = some ([], fired.reverse ++ rest.map Prod.snd) := by
  intro rest
  induction rest with
  | nil => intro done extra fired _ _ _; simp [fireEventsAux]
  | cons p rest' ih =>
      intro done extra fired hdone hrest hextra
      obtain ⟨t, cb⟩ := p
      have hget : (done ++ ((t, cb) :: rest') ++ extra).get? done.length
          = some (t, cb) := by
        rw [List.append_assoc, List.get?_append_right (Nat.le_refl _)]
        simp
      simp only [List.length_cons, fireEventsAux, hget]
      rw [if_pos (hrest (t, cb) (by simp))]
      have hsplit : fireCallback env (done ++ ((t, cb) :: rest') ++ extra) cb
          = (done ++ (t, cb) :: rest') ++ fireCallback env extra cb := by
        unfold fireCallback
        rw [List.append_assoc, ← List.append_assoc done _ extra]
        exact foldl_insert_append (env cb) (done ++ (t, cb) :: rest') extra
          (by
            intro q hq
            rcases List.mem_append.mp hq with h1 | h2
            · exact hdone q h1
            · rcases List.mem_cons.mp h2 with h3 | h4
              · simp [h3]; exact hrest (t, cb) (by simp)
              · exact hrest q (by simp [h4]))
          (henv cb)
      have hextra' : ∀ p ∈ fireCallback env extra cb, now < p.1 := by
        intro p hp
        rcases mem_foldl_insert (env cb) extra hp with h1 | h2
        · exact hextra p h1
        · exact henv cb p h2
      have harr : (done ++ (t, cb) :: rest') ++ fireCallback env extra cb
          = (done ++ [(t, cb)]) ++ rest' ++ fireCallback env extra cb := by
        simp
      have hidx : done.length + 1 = (done ++ [(t, cb)]).length := by simp
      rw [hsplit, harr, hidx]
      rw [ih (done ++ [(t, cb)]) (fireCallback env extra cb) (cb :: fired)
            (by
              intro q hq
              rcases List.mem_append.mp hq with h1 | h2
              · exact hdone q h1
              · simp at h2; subst h2; exact hrest (t, cb) (by simp))
            (fun q hq => hrest q (by simp [hq]))
            hextra']
      simp

/-- C2 (amended): in a fire_events pass over a queue whose entries are all
due, every queued event fires exactly once, in queue order; events that
fired callbacks schedule during the pass with still-future deadlines are
never fired in the same pass, but because the exhausted loop ends with
`self.schedule_queue = []`, they do not remain in the queue either — the
final clear drops them.  (They survive a pass only when the loop stops
early at an original not-yet-due entry.) -/
theorem c2_fire_events_all_due (env : ℕ → List (ℚ × ℕ)) (now : ℚ)
    (q : List (ℚ × ℕ)) (hq : ∀ p ∈ q, p.1 ≤ now)
    (henv : ∀ cb, ∀ p ∈ env cb, now < p.1) :
    fire_events env now q = some ([], q.map Prod.snd) := by
  have h := fireEventsAux_all_due henv q [] [] [] (by simp) hq (by simp)
  simpa [fire_events] using h

/-- Witness for C2 at a concrete two-entry due queue whose callbacks each
schedule a future event at time 20. -/
theorem c2_fire_events_all_due_witness :
    fire_events (fun _ => [((20 : ℚ), 3)]) 10 [((5 : ℚ), 1), ((7 : ℚ), 2)]
      = some ([], [1, 2]) :=
  c2_fire_events_all_due (fun _ => [((20 : ℚ), 3)]) 10
    [((5 : ℚ), 1), ((7 : ℚ), 2)]
    (by intro p hp; rcases List.mem_cons.mp hp with h | h <;> simp_all <;> norm_num)
    (by intro cb p hp; simp at hp; subst hp; norm_num)

/-- C2 counterexample: queue holds one due event; its callback schedules a
future event at deadline 10 (callback id 2).  The pass fires the due event,
then the exhausted loop clears the queue, so the newly scheduled event is
missing from the final queue — contradicting "it remains in the schedule
queue after the pass completes". -/
theorem c2_scheduled_event_lost :
    fire_events (fun cb => if cb = 1 then [((10 : ℚ), 2)] else []) 0
        [((0 : ℚ), 1)] = some ([], [1]) ∧
    ((10 : ℚ), 2) ∉
      ((fire_events (fun cb => if cb = 1 then [((10 : ℚ), 2)] else []) 0
        [((0 : ℚ), 1)]).getD ([], [])).1 := by
  exact ⟨by decide, by decide⟩

/-! ## Road smoothing (src/internals/levelbuilder/towns.py) -/

def ROAD_WIDTH : ℕ := 4

def ROAD_MATERIAL : ℕ := 81

/-- towns.ROAD_MAJOR_TILES: orthogonal-neighbor signature (N,E,S,W) to
joined-road tile id; absent signatures are `none` (the Python `in` check
skips them before any lookup). -/
def ROAD_MAJOR_TILES : ℕ × ℕ × ℕ × ℕ → Option ℕ
  | (1, 1, 1, 1) => some 81
  | (1, 1, 0, 0) => some 85
  | (1, 0, 0, 1) => some 87
  | (0, 1, 1, 0) => some 75
  | (0, 0, 1, 1) => some 77
  | (1, 1, 0, 1) => some 86
  | (0, 1, 1, 1) => some 76
  | (1, 0, 1, 1) => some 82
  | (1, 1, 1, 0) => some 80
  | _ => none

/-- towns.ROAD_MINOR_TILES: diagonal-neighbor signature (NW,NE,SW,SE) to
corner/curb tile id; only four signatures are present, so any other
signature looked up raises KeyError (`none`). -/
def ROAD_MINOR_TILES : ℕ × ℕ × ℕ × ℕ → Option ℕ
  | (0, 1, 1, 1) => some 78
  | (1, 0, 1, 1) => some 79
  | (1, 1, 0, 1) => some 83
  | (1, 1, 1, 0) => some 84
  | _ => none

/-- towns.smooth_roads local `is_road = lambda x: x == ROAD_MATERIAL`. -/
def is_road (x : ℕ) : Bool :=
  x == ROAD_MATERIAL

/-- Python `int(bool)` used in the signature tuples. -/
def b2i (b : Bool) : ℕ :=
  if b then 1 else 0

/-- Two-dimensional indexing `grid[r][c]`; `none` is an IndexError. -/
def getCell (g : List (List ℕ)) (r c : ℕ) : Option ℕ :=
  (g.get? r).bind (fun row => row.get? c)

/-- Two-dimensional update `grid[r][c] = v` (callers only write in bounds). -/
def setCell (g : List (List ℕ)) (r c v : ℕ) : List (List ℕ) :=
  match g.get? r with
  | none => g
  | some row => g.set r (row.set c v)

/-- Major signature `map(int, (is_road(o[r-1][c]), is_road(o[r][c+1]),
is_road(o[r+1][c]), is_road(o[r][c-1])))` as a tuple of the four values. -/
def majorSignature (n e s w : ℕ) : ℕ × ℕ × ℕ × ℕ :=
  (b2i (is_road n), b2i (is_road e), b2i (is_road s), b2i (is_road w))

/-- Minor signature over the four diagonal neighbor values (NW,NE,SW,SE). -/
def minorSignature (nw ne sw se : ℕ) : ℕ × ℕ × ℕ × ℕ :=
  (b2i (is_road nw), b2i (is_road ne), b2i (is_road sw), b2i (is_road se))

/-- Body of one iteration of the smooth_roads double loop at cell (r,c):
skip non-road cells (read from the live grid); look the orthogonal
signature up in ROAD_MAJOR_TILES (read from the untouched copy `ogrid`),
substituting any non-road mapping; for the full-orthogonal signature
(mapping back to ROAD_MATERIAL) inspect the diagonals: leave fully interior
road alone, otherwise substitute `ROAD_MINOR_TILES[minor]`, whose missing
keys raise KeyError (`none`). -/
def smoothCell (ogrid g : List (List ℕ)) (r c : ℕ) : Option (List (List ℕ)) :=
  match getCell g r c with
  | none => none
  | some cur =>
    if ¬ is_road cur then some g
    else
      match getCell ogrid (r - 1) c, getCell ogrid r (c + 1),
            getCell ogrid (r + 1) c, getCell ogrid r (c - 1) with
      | some n, some e, some s, some w =>
          match ROAD_MAJOR_TILES (majorSignature n e s w) with
          | none => some g
          | some nv =>
              if nv ≠ ROAD_MATERIAL then some (setCell g r c nv)
              else
                match getCell ogrid (r - 1) (c - 1), getCell ogrid (r - 1) (c + 1),
                      getCell ogrid (r + 1) (c - 1), getCell ogrid (r + 1) (c + 1) with
                | some nw, some ne, some sw, some se =>
                    if minorSignature nw ne sw se = (1, 1, 1, 1) then some g
                    else
                      match ROAD_MINOR_TILES (minorSignature nw ne sw se) with
                      | some mv => some (setCell g r c mv)
                      | none => none
                | _, _, _, _ => none
      | _, _, _, _ => none

/-- Inner loop of smooth_roads: `for col in range(1, len(grid[row]) - 1)`. -/
def smoothCells (ogrid : List (List ℕ)) (r : ℕ) :
    List ℕ → List (List ℕ) → Option (List (List ℕ))
  | [], g => some g
  | c :: cs, g =>
      match smoothCell ogrid g r c with
      | none => none
      | some g' => smoothCells ogrid r cs g'

/-- Outer loop of smooth_roads: `for row in range(1, len(grid) - 1)`; the
column range is recomputed from the live grid's row length each iteration
(writes preserve row lengths, matching the Python in-place mutation). -/
def smoothRows (ogrid : List (List ℕ)) :
    List ℕ → List (List ℕ) → Option (List (List ℕ))
  | [], g => some g
  | r :: rs, g =>
      match smoothCells ogrid r (List.range' 1 ((g.getD r []).length - 2)) g with
      | none => none
      | some g' => smoothRows ogrid rs g'

/-- towns.smooth_roads: `ogrid = deepcopy(grid)` is the unmutated first
argument threaded through both loops. -/
def smooth_roads (grid : List (List ℕ)) : Option (List (List ℕ)) :=
  smoothRows grid (List.range' 1 (grid.length - 2)) grid

/-- C4 counterexample: in this 3-by-3 grid the center tile is road with all
four orthogonal neighbors road, and all four diagonal neighbors non-road
(minor signature (0,0,0,0), absent from ROAD_MINOR_TILES), so smooth_roads
raises KeyError (`none`) instead of handling the tile — refuting "it never
fails for any combination of non-road diagonal neighbors". -/
theorem c4_smooth_roads_keyerror :
    smooth_roads [[0, 81, 0], [81, 81, 81], [0, 81, 0]] = none := by
  decide

/-- C4 (amended): for a road tile whose four orthogonal neighbors are all
road, smoothCell leaves the tile unchanged when all four diagonal neighbors
are also road; when the diagonal signature is one of the four
ROAD_MINOR_TILES keys (exactly one non-road diagonal) it substitutes that
corner tile; but for every other combination of non-road diagonal
neighbors the ROAD_MINOR_TILES lookup raises KeyError — smooth_roads is
not total on such tiles. -/
theorem c4_smooth_cell_minor_cases
    (ogrid g : List (List ℕ)) (r c : ℕ) (d1 d2 d3 d4 : ℕ)
    (hcur : getCell g r c = some ROAD_MATERIAL)
    (hn : getCell ogrid (r - 1) c = some ROAD_MATERIAL)
    (he : getCell ogrid r (c + 1) = some ROAD_MATERIAL)
    (hs : getCell ogrid (r + 1) c = some ROAD_MATERIAL)
    (hw : getCell ogrid r (c - 1) = some ROAD_MATERIAL)
    (hnw : getCell ogrid (r - 1) (c - 1) = some d1)
    (hne : getCell ogrid (r - 1) (c + 1) = some d2)
    (hsw : getCell ogrid (r + 1) (c - 1) = some d3)
    (hse : getCell ogrid (r + 1) (c + 1) = some d4) :
    (minorSignature d1 d2 d3 d4 = (1, 1, 1, 1) → smoothCell ogrid g r c = some g) ∧
    (∀ mv, ROAD_MINOR_TILES (minorSignature d1 d2 d3 d4) = some mv →
      smoothCell ogrid g r c = some (setCell g r c mv)) ∧
    (minorSignature d1 d2 d3 d4 ≠ (1, 1, 1, 1) →
      ROAD_MINOR_TILES (minorSignature d1 d2 d3 d4) = none →
      smoothCell ogrid g r c = none) := by
  have hmaj : ROAD_MAJOR_TILES (majorSignature ROAD_MATERIAL ROAD_MATERIAL
      ROAD_MATERIAL ROAD_MATERIAL) = some 81 := by decide
  refine ⟨?_, ?_, ?_⟩
  · intro hall
    simp only [smoothCell, hcur, hn, he, hs, hw, hnw, hne, hsw, hse, hmaj,
      if_pos hall]
    norm_num [is_road, ROAD_MATERIAL]
  · intro mv hmv
    have hne1111 : minorSignature d1 d2 d3 d4 ≠ (1, 1, 1, 1) := by
      intro hcontra
      rw [hcontra, show ROAD_MINOR_TILES (1, 1, 1, 1) = none from rfl] at hmv
      cases hmv
    simp only [smoothCell, hcur, hn, he, hs, hw, hnw, hne, hsw, hse, hmaj,
      if_neg hne1111, hmv]
    norm_num [is_road, ROAD_MATERIAL]
  · intro hne1111 hnone
    simp only [smoothCell, hcur, hn, he, hs, hw, hnw, hne, hsw, hse, hmaj,
      if_neg hne1111, hnone]
    norm_num [is_road, ROAD_MATERIAL]

/-- Witness for C4 at the all-road 3-by-3 grid: the center tile is fully
interior road and smoothCell leaves the grid unchanged. -/
theorem c4_smooth_cell_minor_cases_witness :
    smoothCell [[81, 81, 81], [81, 81, 81], [81, 81, 81]]
        [[81, 81, 81], [81, 81, 81], [81, 81, 81]] 1 1
      = some [[81, 81, 81], [81, 81, 81], [81, 81, 81]] :=
  (c4_smooth_cell_minor_cases
      [[81, 81, 81], [81, 81, 81], [81, 81, 81]]
      [[81, 81, 81], [81, 81, 81], [81, 81, 81]] 1 1 81 81 81 81
      (by decide) (by decide) (by decide) (by decide) (by decide)
      (by decide) (by decide) (by decide) (by decide)).1 (by decide)

/-! ## String-payload parsing helpers (Python str.split / float / int) -/

/-- Python `s.split(sep)` on a character list (full split, empty pieces
kept, `""` splitting to `[""]`). -/
def splitOnChar (sep : Char) : List Char → List (List Char)
  | [] => [[]]
  | c :: rest =>
      if c = sep then [] :: splitOnChar sep rest
      else
        match splitOnChar sep rest with
        | [] => [[c]]
        | s :: ss => (c :: s) :: ss

/-- Accumulate decimal digits; any non-digit character is a ValueError. -/
def natOfDigitsAux (acc : ℕ) : List Char → Option ℕ
  | [] => some acc
  | c :: rest =>
      if '0' ≤ c ∧ c ≤ '9' then
        natOfDigitsAux (acc * 10 + (c.toNat - '0'.toNat)) rest
      else none

/-- Split a numeral at its first decimal point, if any. -/
def splitAtDot : List Char → List Char × Option (List Char)
  | [] => ([], none)
  | c :: rest =>
      if c = '.' then ([], some rest)
      else
        match splitAtDot rest with
        | (a, b) => (c :: a, b)

/-- Unsigned part of a Python numeral: decimal digits with an optional
fractional part. -/
def pyFloatMag (body : List Char) : Option ℚ :=
  match splitAtDot body with
  | (ip, none) =>
      if ip = [] then none
      else (natOfDigitsAux 0 ip).map (fun n => (n : ℚ))
  | (ip, some fp) =>
      if ip = [] ∧ fp = [] then none
      else
        (natOfDigitsAux 0 ip).bind fun n =>
          (natOfDigitsAux 0 fp).map fun f =>
            (n : ℚ) + (f : ℚ) / (10 : ℚ) ^ fp.length

/-- Python `float(s)` restricted to the numeral forms the protocol uses
(optional sign, decimal digits, optional fraction); scientific notation and
surrounding whitespace, which the handlers never receive, are not
modelled.  `none` is a ValueError. -/
def pyFloat (cs : List Char) : Option ℚ :=
  match cs with
  | '-' :: rest => (pyFloatMag rest).map (fun q => -q)
  | '+' :: rest => pyFloatMag rest
  | _ => pyFloatMag cs

/-- Python `int(float)` truncation toward zero on the exact rational
(numerator T-division by the positive denominator). -/
def ratTrunc (q : ℚ) : ℤ :=
  q.num.tdiv (q.den : ℤ)

/-! ## CommHandler position updates (src/internals/comm.py) -/

/-- Session state mutated by CommHandler._on_position_update.
Wall-clock times (`time.time() * 1000`) are modelled as exact integer
milliseconds. `schedulerEvents` — Modelled from the spec: the private
Scheduler (internals/scheduler.py is not under src/) re-arms its
extrapolation timer on `event_happened()`; each call is modelled as a
counter increment.  The redis position-cache write goes to an external
store, not session state. -/
structure CommState where
  position : ℚ × ℚ
  velocity : ℤ × ℤ
  lastUpdate : ℤ
  schedulerEvents : ℕ
  deriving DecidableEq, Repr

/-- Validation and state-update tail of CommHandler._on_position_update,
after the four colon fields have been parsed to ints: reject with
errBad Direction unless at least one direction component lies in [-1,1]
(the source condition is `not (-1 <= x_dir <= 1 or -1 <= y_dir <= 1)`);
reject out-of-world pixel coordinates with errBad Position; otherwise set
position and velocity, fire the scheduler, and refresh the 5 ms broadcast
throttle stamp.  The second component is the error frame written back, if
any. -/
def on_position_update_parsed (st : CommState) (now_ms : ℤ) (x y xdir ydir : ℤ) :
    CommState × Option (List Char) :=
  if ¬ ((-1 ≤ xdir ∧ xdir ≤ 1) ∨ (-1 ≤ ydir ∧ ydir ≤ 1)) then
    (st, some "errBad Direction".data)
  else if x < 0 ∨ x > ((level_width * tilesize : ℕ) : ℤ) ∨
          y < 0 ∨ y > ((level_height * tilesize : ℕ) : ℤ) then
    (st, some "errBad Position".data)
  else
    let st1 : CommState :=
      { st with position := ((x : ℚ), (y : ℚ)), velocity := (xdir, ydir),
                schedulerEvents := st.schedulerEvents + 1 }
    if now_ms - st.lastUpdate < 5 then (st1, none)
    else ({ st1 with lastUpdate := now_ms }, none)

/-- CommHandler._on_position_update: parse `x:y:xdir:ydir` through
`map(int, map(float, data.split(":")))` — a parse failure or a field count
other than four is a ValueError answered with errInvalid Position — then
validate and update. -/
def on_position_update (st : CommState) (now_ms : ℤ) (data : List Char) :
    CommState × Option (List Char) :=
  match (splitOnChar ':' data).mapM pyFloat with
  | none => (st, some "errInvalid Position".data)
  | some qs =>
      match qs.map ratTrunc with
      | [x, y, xdir, ydir] => on_position_update_parsed st now_ms x y xdir ydir
      | _ => (st, some "errInvalid Position".data)

/-- C6 counterexample: the payload `100:100:2:0` (xdir=2, ydir=0) is
accepted — no error frame is written and the velocity becomes (2,0) —
because ydir=0 lies in [-1,1] and the validation only requires one of the
two components to be in range.  The claim says this payload is rejected
with errBad Direction. -/
theorem c6_xdir2_accepted :
    (on_position_update ⟨(0, 0), (0, 0), 0, 0⟩ 100 "100:100:2:0".data).2 = none ∧
    (on_position_update ⟨(0, 0), (0, 0), 0, 0⟩ 100 "100:100:2:0".data).1.velocity
      = (2, 0) := by
  exact ⟨by decide, by decide⟩

/-- C6 (amended): a position update is rejected with errBad Direction —
leaving session state unchanged — exactly when BOTH direction components
lie outside [-1,1]; whenever at least one component is in range (so both
xdir=2, ydir=0 and xdir=1, ydir=5 are accepted) and the coordinates are in
bounds, the update is accepted: no error frame, position set to (x,y) and
velocity to (xdir,ydir). -/
theorem c6_direction_validation (st : CommState) (now_ms : ℤ) (x y xdir ydir : ℤ) :
    ((xdir < -1 ∨ 1 < xdir) ∧ (ydir < -1 ∨ 1 < ydir) →
      on_position_update_parsed st now_ms x y xdir ydir
        = (st, some "errBad Direction".data)) ∧
    (((-1 ≤ xdir ∧ xdir ≤ 1) ∨ (-1 ≤ ydir ∧ ydir ≤ 1)) →
      0 ≤ x → x ≤ ((level_width * tilesize : ℕ) : ℤ) →
      0 ≤ y → y ≤ ((level_height * tilesize : ℕ) : ℤ) →
      (on_position_update_parsed st now_ms x y xdir ydir).1.position
          = ((x : ℚ), (y : ℚ)) ∧
        (on_position_update_parsed st now_ms x y xdir ydir).1.velocity
          = (xdir, ydir) ∧
        (on_position_update_parsed st now_ms x y xdir ydir).2 = none) := by
  constructor
  · intro ⟨h1, h2⟩
    rw [on_position_update_parsed, if_pos]
    push_neg
    constructor <;> intro hc <;> omega
  · intro hdir hx0 hx1 hy0 hy1
    have hcond : ¬¬ ((-1 ≤ xdir ∧ xdir ≤ 1) ∨ (-1 ≤ ydir ∧ ydir ≤ 1)) :=
      not_not_intro hdir
    have hbounds : ¬ (x < 0 ∨ x > ((level_width * tilesize : ℕ) : ℤ) ∨
        y < 0 ∨ y > ((level_height * tilesize : ℕ) : ℤ)) := by
      push_neg
      exact ⟨hx0, hx1, hy0, hy1⟩
    rw [on_position_update_parsed, if_neg hcond, if_neg hbounds]
    by_cases hthrottle : now_ms - st.lastUpdate < 5
    · rw [if_pos hthrottle]
      exact ⟨rfl, rfl, rfl⟩
    · rw [if_neg hthrottle]
      exact ⟨rfl, rfl, rfl⟩

/-- Witness for C6: xdir=2, ydir=5 (both out of range) is rejected with
errBad Direction, and xdir=1, ydir=5 at position (100,100) is accepted
with velocity (1,5). -/
theorem c6_direction_validation_witness :
    on_position_update_parsed ⟨(0, 0), (0, 0), 0, 0⟩ 100 100 100 2 5
        = (⟨(0, 0), (0, 0), 0, 0⟩, some "errBad Direction".data) ∧
      (on_position_update_parsed ⟨(0, 0), (0, 0), 0, 0⟩ 100 100 100 1 5).1.velocity
        = (1, 5) :=
  ⟨(c6_direction_validation ⟨(0, 0), (0, 0), 0, 0⟩ 100 100 100 2 5).1
      (by constructor <;> [right; right] <;> decide),
   ((c6_direction_validation ⟨(0, 0), (0, 0), 0, 0⟩ 100 100 100 1 5).2
      (by left; constructor <;> decide)
      (by decide) (by decide) (by decide) (by decide)).2.1⟩

/-! ## Guid-keyed dicts and integer square roots -/

/-- Lookup in a guid-keyed Python dict. -/
def assocLookup {κ α : Type} [DecidableEq κ] (d : List (κ × α)) (k : κ) : Option α :=
  match d with
  | [] => none
  | (k0, v0) :: rest => if k0 = k then some v0 else assocLookup rest k

/-- Assignment `d[k] = v` in a guid-keyed Python dict. -/
def assocInsert {κ α : Type} [DecidableEq κ] (d : List (κ × α)) (k : κ) (v : α) :
    List (κ × α) :=
  match d with
  | [] => [(k, v)]
  | (k0, v0) :: rest =>
      if k0 = k then (k0, v) :: rest else (k0, v0) :: assocInsert rest k v

/-- Fuel-driven integer square root (binary recursion on n / 4); the fuel
`n` itself always suffices since the recursion depth is logarithmic. -/
def isqrtFuel : ℕ → ℕ → ℕ
  | 0, _ => 0
  | fuel + 1, n =>
      if n < 2 then n
      else
        let r := 2 * isqrtFuel fuel (n / 4)
        if (r + 1) * (r + 1) ≤ n then r + 1 else r

/-- Integer square root ⌊√n⌋ as an executable structural recursion. -/
def isqrt (n : ℕ) : ℕ :=
  isqrtFuel n n

lemma isqrtFuel_bounds :
    ∀ (fuel n : ℕ), n ≤ fuel →
      isqrtFuel fuel n * isqrtFuel fuel n ≤ n ∧
        n < (isqrtFuel fuel n + 1) * (isqrtFuel fuel n + 1) := by
  intro fuel
  induction fuel with
  | zero => intro n hn; interval_cases n; simp [isqrtFuel]
  | succ fuel ih =>
      intro n hn
      by_cases hsmall : n < 2
      · rw [isqrtFuel, if_pos hsmall]
        interval_cases n <;> simp
      · rw [isqrtFuel, if_neg hsmall]
        have hrec := ih (n / 4) (by omega)
        set r0 := isqrtFuel fuel (n / 4) with hr0
        obtain ⟨h1, h2⟩ := hrec
        have hdiv1 : 4 * (n / 4) ≤ n := by omega
        have hdiv2 : n < 4 * (n / 4) + 4 := by omega
        have hlow : (2 * r0) * (2 * r0) ≤ n := by nlinarith
        have hhigh : n < (2 * r0 + 2) * (2 * r0 + 2) := by nlinarith
        by_cases hmid : (2 * r0 + 1) * (2 * r0 + 1) ≤ n
        · rw [if_pos hmid]
          constructor
          · exact hmid
          · calc n < (2 * r0 + 2) * (2 * r0 + 2) := hhigh
              _ = (2 * r0 + 1 + 1) * (2 * r0 + 1 + 1) := by ring
        · rw [if_neg hmid]
          exact ⟨hlow, by omega⟩

lemma isqrt_eq_sqrt (n : ℕ) : isqrt n = Nat.sqrt n := by
  obtain ⟨h1, h2⟩ := isqrtFuel_bounds n n (Nat.le_refl n)
  have hle : isqrt n ≤ Nat.sqrt n := Nat.le_sqrt.mpr h1
  have hlt : Nat.sqrt n < isqrt n + 1 := Nat.sqrt_lt.mpr h2
  omega

/-! ## Entity base class (src/internals/entities/entities.py) -/

/-- Entity.get_prefix: generated entity guids carry a literal percent-sign
marker (while filtering code elsewhere tests for an at-sign, see C3). -/
def entity_guid_mark : List Char :=
  "%".data

/-- Entity state relevant to message handling: the guid, the pixel
position, and the remembered per-guid distances (Entity._player_movement
stores integer buckets, SentientAnimat.do_work stores fractional tile
distances, so the mapped values are rationals). -/
structure Ent where
  id : List Char
  position : ℚ × ℚ
  remembered : List (List Char × ℚ)
  deriving DecidableEq, Repr

/-- Integer distance bucket from a squared pixel distance:
`int(hypot(dx, dy) / tilesize)` over exact reals equals
⌊√(dx²+dy²)⌋ / 50 in truncating arithmetic, since ⌊x/50⌋ = ⌊⌊x⌋/50⌋ and
⌊√q⌋ = ⌊√⌊q⌋⌋ for q ≥ 0 (`isqrt` is ⌊√·⌋ by `isqrt_eq_sqrt`). -/
def distBucket (sq : ℚ) : ℕ :=
  isqrt sq.floor.toNat / tilesize

/-- Entity._player_movement: bucket the player's distance in tiles and,
unless the bucket equals the remembered one for this guid, remember the
new bucket and fire on_player_range — the fired call is the second
component. -/
def player_movement (e : Ent) (guid : List Char) (x y : ℤ) :
    Ent × Option (List Char × ℕ) :=
  let sq : ℚ := ((x : ℚ) - e.position.1) ^ 2 + ((y : ℚ) - e.position.2) ^ 2
  let distance := distBucket sq
  match assocLookup e.remembered guid with
  | some old =>
      if old = (distance : ℚ) then (e, none)
      else ({ e with remembered := assocInsert e.remembered guid (distance : ℚ) },
            some (guid, distance))
  | none =>
      ({ e with remembered := assocInsert e.remembered guid (distance : ℚ) },
       some (guid, distance))

/-- Python `s.split(sep, 1)` when the separator occurs; `none` models the
unpack ValueError / index error when it does not. -/
def splitFirst (sep : Char) : List Char → Option (List Char × List Char)
  | [] => none
  | c :: rest =>
      if c = sep then some ([], rest)
      else (splitFirst sep rest).map (fun p => (c :: p.1, p.2))

/-- Python `int(s)`: optional sign and decimal digits (whitespace-tolerant
forms are not exercised by the protocol). -/
def parseInt (cs : List Char) : Option ℤ :=
  match cs with
  | '-' :: rest =>
      if rest = [] then none
      else (natOfDigitsAux 0 rest).map (fun n => -(n : ℤ))
  | '+' :: rest =>
      if rest = [] then none
      else (natOfDigitsAux 0 rest).map (fun n => (n : ℤ))
  | _ =>
      if cs = [] then none
      else (natOfDigitsAux 0 cs).map (fun n => (n : ℤ))

/-- Calls dispatched by Entity.handle_message. -/
inductive EntEvent where
  | playerRange (guid : List Char) (distance : ℕ)
  | chat (guid : List Char) (message : List Char) (distance : Option ℚ)
  deriving DecidableEq, Repr

/-- Entity.handle_message: route by the 3-character tag.  `loc` parses
`guid:x:y:xvel:yvel` and runs _player_movement; `cha` splits off the
subject guid, asserts it does not start with "@" (an AssertionError —
`none` — even though generated entity guids actually start with
entity_guid_mark "%"), drops the newline-delimited display-name header and
dispatches on_chat with the remembered distance when known; other tags go
to the subclass extension point (a no-op here). -/
def handle_message (e : Ent) (message : List Char) : Option (Ent × List EntEvent) :=
  let type := message.take 3
  let rest := message.drop 3
  if type = "loc".data then
    match splitOnChar ':' rest with
    | [guid, xs, ys, _xvel, _yvel] =>
        match parseInt xs, parseInt ys with
        | some x, some y =>
            match player_movement e guid x y with
            | (e', some (g, d)) => some (e', [EntEvent.playerRange g d])
            | (e', none) => some (e', [])
        | _, _ => none
    | _ => none
  else if type = "cha".data then
    match splitFirst ':' rest with
    | none => none
    | some (guid, chat_data) =>
        if "@".data.isPrefixOf guid then none
        else
          match splitFirst '\n' chat_data with
          | none => none
          | some (_, body) =>
              match assocLookup e.remembered guid with
              | none => some (e, [EntEvent.chat guid body none])
              | some d => some (e, [EntEvent.chat guid body (some d)])
  else
    some (e, [])

/-- C3: a `cha` bus message whose subject guid begins with the actual
entity-id marker "%" (Entity.get_prefix) is NOT filtered out:
the assertion only rejects guids starting with "@", so handle_message
dispatches on_chat for the entity-originated chat — the claim says on_chat
is not dispatched for such messages. -/
theorem c3_entity_chat_dispatched :
    entity_guid_mark.isPrefixOf "%deadbeef".data = true ∧
    handle_message ⟨"%e1".data, (0, 0), []⟩ "cha%deadbeef:Bob\nhello".data
      = some (⟨"%e1".data, (0, 0), []⟩,
              [EntEvent.chat "%deadbeef".data "hello".data none]) := by
  exact ⟨by decide, by decide⟩

/-! ## EntityServlet dead reckoning (src/internals/entity_servlet.py) -/

/-- constants.speed = 0.2 pixels per tick. -/
def speed : ℚ :=
  2 / 10

/-- Per-location worker's shadow of a connected player (SimulatedPlayer):
id, last broadcast pixel position and velocity, and the freshly-updated
flag. -/
structure SimPlayer where
  id : List Char
  position : ℚ × ℚ
  velocity : ℤ × ℤ
  updated : Bool
  deriving DecidableEq, Repr

/-- SimulatedPlayer.post_velocity: adopt the broadcast position (already
int-cast by `map(int, (x, y))`) and velocity, and mark the player dirty. -/
def post_velocity (p : SimPlayer) (x y xvel yvel : ℤ) : SimPlayer :=
  { p with position := ((x : ℚ), (y : ℚ)), velocity := (xvel, yvel),
           updated := true }

/-- SimulatedPlayer.on_tick: advance each coordinate by velocity × period ×
speed when that velocity component is nonzero; report whether a distance
closure was produced (the source returns the distance lambda exactly when
something moved or the player was freshly updated, clearing the flag). -/
def on_tick (p : SimPlayer) (period : ℚ) : SimPlayer × Bool :=
  let xvel := p.velocity.1
  let yvel := p.velocity.2
  let x' := if xvel ≠ 0 then p.position.1 + (xvel : ℚ) * period * speed else p.position.1
  let y' := if yvel ≠ 0 then p.position.2 + (yvel : ℚ) * period * speed else p.position.2
  let didUpdate := xvel ≠ 0 ∨ yvel ≠ 0
  if didUpdate ∨ p.updated then
    ({ p with position := (x', y'), updated := false }, true)
  else
    (p, false)

/-- The guard `entity.remembered_distances == distance` in EntityServlet.run
compares the whole dict with an int; in Python values of different types
are never equal, so the expression is constantly False (its comment says
it should detect "no change in distance"). -/
def pyDictEqInt (_d : List (List Char × ℚ)) (_n : ℕ) : Bool :=
  false

/-- One entity step of the per-player sweep in EntityServlet.run:
`distance = int(output(entity))` (the closure computes
√((ex−x)²+(ey−y)²)/tilesize), skip when
`guid in entity.remembered_distances and entity.remembered_distances ==
distance`, else store the distance and fire on_player_range. -/
def servletSweepEntity (guid : List Char) (px py : ℚ) (e : Ent) :
    Ent × Option (List Char × ℕ) :=
  let distance := distBucket ((e.position.1 - px) ^ 2 + (e.position.2 - py) ^ 2)
  if (assocLookup e.remembered guid).isSome ∧ pyDictEqInt e.remembered distance then
    (e, none)
  else
    ({ e with remembered := assocInsert e.remembered guid ((distance : ℕ) : ℚ) },
     some (guid, distance))

/-- The sweep over every entity for one player, collecting the
on_player_range calls fired. -/
def servletSweep (guid : List Char) (px py : ℚ) :
    List Ent → List Ent × List (List Char × ℕ)
  | [] => ([], [])
  | e :: es =>
      let (e', fired) := servletSweepEntity guid px py e
      let (es', fs) := servletSweep guid px py es
      (e' :: es', (match fired with | some f => [f] | none => []) ++ fs)

/-- Per-player portion of one EntityServlet.run loop iteration: advance the
dead-reckoned player, and when on_tick produced a distance closure, sweep
every entity. -/
def servlet_player_tick (p : SimPlayer) (period : ℚ) (entities : List Ent) :
    SimPlayer × List Ent × List (List Char × ℕ) :=
  match on_tick p period with
  | (p', true) =>
      let (es', fired) := servletSweep p.id p'.position.1 p'.position.2 entities
      (p', es', fired)
  | (p', false) => (p', entities, [])

/-- C1: a freshly updated, motionless simulated player at pixel (100,0) sits
at bucketed tile distance 2 from the entity at (0,0), which already
remembers distance 2 for this guid — yet the sweep fires on_player_range
("p1", 2) anyway, because the skip guard compares the remembered-distance
dict itself against the int bucket (always False) instead of the stored
value.  The claim says a same-bucket update fires nothing. -/
theorem c1_sweep_fires_on_unchanged_bucket :
    servlet_player_tick ⟨"p1".data, (100, 0), (0, 0), true⟩ 1
        [⟨"%m1".data, (0, 0), [("p1".data, 2)]⟩]
      = (⟨"p1".data, (100, 0), (0, 0), false⟩,
         [⟨"%m1".data, (0, 0), [("p1".data, 2)]⟩],
         [("p1".data, 2)]) := by
  have hsq : ((0 : ℚ) - 100) ^ 2 + ((0 : ℚ) - 0) ^ 2 = 10000 := by norm_num
  have hd : distBucket 10000 = 2 := by decide
  have hstep : servletSweepEntity "p1".data 100 0 ⟨"%m1".data, (0, 0), [("p1".data, 2)]⟩
      = (⟨"%m1".data, (0, 0), [("p1".data, 2)]⟩, some ("p1".data, 2)) := by
    unfold servletSweepEntity
    rw [show (⟨"%m1".data, (0, 0), [("p1".data, 2)]⟩ : Ent).position.1 = 0 from rfl,
        show (⟨"%m1".data, (0, 0), [("p1".data, 2)]⟩ : Ent).position.2 = 0 from rfl,
        hsq, hd]
    decide
  have htick : on_tick ⟨"p1".data, (100, 0), (0, 0), true⟩ 1
      = (⟨"p1".data, (100, 0), (0, 0), false⟩, true) := by decide
  unfold servlet_player_tick
  rw [htick]
  simp only [servletSweep, hstep, List.append_nil]

/-! ## SentientAnimat (src/internals/entities/sentient.py) -/

/-- Result of SentientAnimat._handle_message for atk/hit traffic: the
_saw_attack hook fired (with the attacker guid) and the _attacked call
(attacker guid and weapon item), when the filters pass. -/
structure HitOutcome where
  sawAttack : Option (List Char)
  attacked : Option (List Char × List Char)
  deriving DecidableEq, Repr

/-- SentientAnimat._handle_message: other tags fall through to the base
extension point; atk/hit first fire _saw_attack(data[0]); "atk" is ignored
when this entity is the attacker or is not the stated target; "hit" is
ignored when this entity is the attacker, or when the Euclidean PIXEL
distance from the stated hit coordinates exceeds HURT_DISTANCE (= 1 — the
constant is a tile count everywhere else, but no tilesize division happens
here, so the comparison is against one pixel); surviving messages reach
_attacked → Harmable.harmed_by. -/
def sent_handle_message (selfId : List Char) (pos : ℚ × ℚ)
    (type message : List Char) : Option HitOutcome :=
  if type ≠ "atk".data ∧ type ≠ "hit".data then some ⟨none, none⟩
  else
    let data := splitOnChar ':' message
    let attacker := data.headD []
    if type = "atk".data then
      match data with
      | [guid, item, atk_guid] =>
          if guid = selfId ∨ atk_guid ≠ selfId then some ⟨some attacker, none⟩
          else some ⟨some attacker, some (guid, item)⟩
      | _ => none
    else
      match data with
      | [guid, item, axs, ays] =>
          if guid = selfId then some ⟨some attacker, none⟩
          else
            match pyFloat axs, pyFloat ays with
            | some ax, some ay =>
                if (pos.1 - ax) ^ 2 + (pos.2 - ay) ^ 2 > HURT_DISTANCE ^ 2 then
                  some ⟨some attacker, none⟩
                else some ⟨some attacker, some (guid, item)⟩
            | _, _ => none
      | _ => none

/-- C5: a hit at pixel (30, 0), 0.6 tiles from the entity at the origin —
well within the claimed hurt range of 1 tile (50 pixels) — is IGNORED
(_saw_attack fires but _attacked does not), because the code compares the
raw pixel distance 30 against HURT_DISTANCE = 1 without converting to
tiles; only a hit within one pixel (second conjunct) reaches _attacked. -/
theorem c5_hit_within_tile_ignored :
    ((30 : ℚ) - 0) ^ 2 + ((0 : ℚ) - 0) ^ 2 ≤ ((HURT_DISTANCE * (tilesize : ℚ)) ^ 2) ∧
    sent_handle_message "%m1".data (0, 0) "hit".data "p1:wsw.plain.1:30:0".data
      = some ⟨some "p1".data, none⟩ ∧
    sent_handle_message "%m1".data (0, 0) "hit".data "p1:wsw.plain.1:1:0".data
      = some ⟨some "p1".data, some ("p1".data, "wsw.plain.1".data)⟩ := by
  refine ⟨by norm_num [HURT_DISTANCE, tilesize], ?_, ?_⟩
  · have hfar : ((0 : ℚ) - 30) ^ 2 + ((0 : ℚ) - 0) ^ 2 > HURT_DISTANCE ^ 2 := by
      norm_num [HURT_DISTANCE]
    unfold sent_handle_message
    rw [if_neg (by decide)]
    simp only [show ("hit".data = "atk".data) = False by decide, if_false]
    have hsplit : splitOnChar ':' "p1:wsw.plain.1:30:0".data
        = ["p1".data, "wsw.plain.1".data, "30".data, "0".data] := by decide
    rw [hsplit]
    simp only [List.headD]
    rw [if_neg (by decide : ¬ ("p1".data = "%m1".data))]
    have h30 : pyFloat "30".data = some 30 := by decide
    have h0 : pyFloat "0".data = some 0 := by decide
    rw [h30, h0]
    simp only [show ((0 : ℚ) - 30) = -30 by norm_num, show ((0 : ℚ) - 0) = 0 by norm_num]
    norm_num [HURT_DISTANCE]
  · have hnear : ¬ (((0 : ℚ) - 1) ^ 2 + ((0 : ℚ) - 0) ^ 2 > HURT_DISTANCE ^ 2) := by
      norm_num [HURT_DISTANCE]
    unfold sent_handle_message
    rw [if_neg (by decide)]
    simp only [show ("hit".data = "atk".data) = False by decide, if_false]
    have hsplit : splitOnChar ':' "p1:wsw.plain.1:1:0".data
        = ["p1".data, "wsw.plain.1".data, "1".data, "0".data] := by decide
    rw [hsplit]
    simp only [List.headD]
    rw [if_neg (by decide : ¬ ("p1".data = "%m1".data))]
    have h1 : pyFloat "1".data = some 1 := by decide
    have h0 : pyFloat "0".data = some 0 := by decide
    rw [h1, h0]
    simp only [show ((0 : ℚ) - 1) = -1 by norm_num, show ((0 : ℚ) - 0) = 0 by norm_num]
    norm_num [HURT_DISTANCE]

/-- Callbacks SentientAnimat._reevaluate_behavior can schedule. -/
inductive SentCb where
  | reevaluate
  | wander
  deriving DecidableEq, Repr

/-- Environment of one _reevaluate_behavior call.  Wall-clock time is exact
integer milliseconds (every delay in the source is a whole number of
milliseconds; the jitter term `randint(5, 7) / 11` is Python 2 integer
division and so contributes zero).  `bestDirW` is the value returned by
`_get_best_direction(weighted=True)` — a read-only computation mixing
floating-point trigonometry with random draws, supplied as an oracle; it
writes no entity state (it only reads positions and may publish a chat
line).  `hitmapAt` is the read-only `get_hitmap` window the move method
caches. -/
structure SentEnv where
  nowMs : ℤ
  rand57 : ℤ
  bestDirW : Option (ℤ × ℤ)
  hitmapAt : (ℚ × ℚ) → (ℚ × ℚ) × (ℚ × ℚ)

/-- SentientAnimat state touched by _reevaluate_behavior and its callees. -/
structure SentState where
  position : ℚ × ℚ
  offset : ℚ × ℚ
  velocity : ℤ × ℤ
  oldVelocity : ℤ × ℤ
  layer : ℕ
  hitmap : Option ((ℚ × ℚ) × (ℚ × ℚ))
  fleeing : List (List Char)
  chasing : Option (List Char)
  remembered : List (List Char × ℚ)
  doesAttack : Bool
  lastAttackMs : ℤ
  queue : List (ℤ × SentCb)
  deriving DecidableEq

/-- ScheduleHelper.schedule as invoked by the sentient layer:
`then = time.time() + seconds`, in milliseconds. -/
def sentSchedule (env : SentEnv) (s : SentState) (delayMs : ℤ) (cb : SentCb) :
    SentState :=
  { s with queue := scheduleInsert s.queue (env.nowMs + delayMs) cb }

/-- Animat.move restricted to this entity's state: no-op when the velocity
is unchanged, else swap old/new velocity, recompute the layer, and refresh
the cached hitmap window at (x - offset_x, y); the broadcast publishes and
updates OTHER entities, leaving this entity's fields alone. -/
def sentMove (env : SentEnv) (s : SentState) (xv yv : ℤ) : SentState :=
  if xv = s.velocity.1 ∧ yv = s.velocity.2 then s
  else
    { s with oldVelocity := s.velocity, velocity := (xv, yv),
             layer := if xv ≠ 0 ∨ yv ≠ 0 then 1 else 0,
             hitmap := some (env.hitmapAt (s.position.1 - s.offset.1, s.position.2)) }

/-- SentientAnimat.attack: a 1.5-second cooldown guards the atk broadcast;
only the last-attack stamp lives in entity state. -/
def sentAttack (env : SentEnv) (s : SentState) (_guid : List Char) : SentState :=
  if env.nowMs - s.lastAttackMs < 1500 then s
  else { s with lastAttackMs := env.nowMs }

/-- The generator `all(self.remembered_distances[x] > FLEE_DISTANCE for x in
self.fleeing)`: short-circuits at the first near guid; a feared guid with
no remembered distance raises KeyError (`none`). -/
def allRemFar (rem : List (List Char × ℚ)) : List (List Char) → Option Bool
  | [] => some true
  | g :: gs =>
      match assocLookup rem g with
      | none => none
      | some d => if d > FLEE_DISTANCE then allRemFar rem gs else some false

/-- Re-evaluation delay `REEVALUATE_TIME + randint(5, 7) / 11` in
milliseconds: 675 plus 1000 times the integer quotient (which is zero). -/
def reevalDelayMs (env : SentEnv) : ℤ :=
  675 + 1000 * env.rand57.tdiv 11

/-- The `if self.chasing:` block of _reevaluate_behavior: look up the
chased guid's remembered distance (KeyError when unknown), attack when
able and within HURT_DISTANCE, and stop closing (`dont_move`, the returned
flag) within 2 tiles. -/
def chaseStep (env : SentEnv) (s : SentState) : Option (SentState × Bool) :=
  match s.chasing with
  | none => some (s, false)
  | some cg =>
      match assocLookup s.remembered cg with
      | none => none
      | some cd =>
          let sA := if s.doesAttack ∧ cd ≤ HURT_DISTANCE then
                      sentAttack env s cg
                    else s
          if cd < 2 then some (sentMove env sA 0 0, true)
          else some (sA, false)

/-- SentientAnimat._reevaluate_behavior.  `is_fleeing` aliases the fleeing
set itself; the resolved-flee branch computes the `all(...)` generator and
assigns a misspelled local (`if_fleeing = False`) that is never read, so
the branch's only observable effect is the possible KeyError.  The
returned boolean is the source's return value (whether re-evaluation is
still live). -/
def reevaluateBehavior (env : SentEnv) (s : SentState) : Option (SentState × Bool) :=
  let isFleeing := s.fleeing
  let checked : Option Unit :=
    if s.fleeing ≠ [] then (allRemFar s.remembered s.fleeing).map (fun _ => ())
    else some ()
  match checked with
  | none => none
  | some _ =>
      if s.chasing = none ∧ isFleeing = [] then
        let s1 := sentMove env s 0 0
        let s2 := sentSchedule env s1 2000 SentCb.wander
        if s.fleeing = [] then some (s2, false)
        else some (sentSchedule env s2 (reevalDelayMs env) SentCb.reevaluate, true)
      else
        match chaseStep env s with
        | none => none
        | some (sB, dontMove) =>
            if ¬ dontMove then
              match env.bestDirW with
              | none =>
                  some (sentSchedule env (sentMove env sB 0 0) 3000 SentCb.wander,
                        false)
              | some bd =>
                  let sC := if (bd.1, bd.2) ≠ sB.velocity then
                              sentMove env sB bd.1 bd.2
                            else sB
                  some (sentSchedule env sC (reevalDelayMs env) SentCb.reevaluate,
                        true)
            else
              some (sentSchedule env sB (reevalDelayMs env) SentCb.reevaluate, true)

lemma sentSchedule_fleeing (env : SentEnv) (s : SentState) (d : ℤ) (cb : SentCb) :
    (sentSchedule env s d cb).fleeing = s.fleeing :=
  rfl

lemma sentMove_fleeing (env : SentEnv) (s : SentState) (xv yv : ℤ) :
    (sentMove env s xv yv).fleeing = s.fleeing := by
  rw [sentMove]
  split <;> rfl

lemma sentAttack_fleeing (env : SentEnv) (s : SentState) (g : List Char) :
    (sentAttack env s g).fleeing = s.fleeing := by
  rw [sentAttack]
  split <;> rfl

/-- C9: whatever path _reevaluate_behavior takes — including the case where
every feared guid's remembered distance exceeds FLEE_DISTANCE, whose
resolved flag is assigned to a dead local — the fleeing set of the
resulting state equals the fleeing set before the call; only stop_fleeing
and forget remove guids. -/
lemma chaseStep_fleeing (env : SentEnv) (s : SentState) (r : SentState × Bool)
    (h : chaseStep env s = some r) : r.1.fleeing = s.fleeing := by
  simp only [chaseStep] at h
  repeat' split at h
  all_goals simp_all only [Option.some.injEq, reduceCtorEq]
  all_goals
    (subst h
     simp [sentMove_fleeing, sentAttack_fleeing])

theorem c9_reevaluate_preserves_fleeing (env : SentEnv) (s : SentState)
    (out : SentState × Bool) (h : reevaluateBehavior env s = some out) :
    out.1.fleeing = s.fleeing := by
  simp only [reevaluateBehavior] at h
  split at h
  · cases h
  · split at h
    · split at h
      · rw [Option.some.injEq] at h
        subst h
        simp [sentSchedule_fleeing, sentMove_fleeing]
      · rw [Option.some.injEq] at h
        subst h
        simp [sentSchedule_fleeing, sentMove_fleeing]
    · split at h
      · cases h
      · rename_i sB dontMove heqC
        have hB : sB.fleeing = s.fleeing := chaseStep_fleeing env s (sB, dontMove) heqC
        split at h
        · split at h
          · rw [Option.some.injEq] at h
            subst h
            simp [sentSchedule_fleeing, sentMove_fleeing, hB]
          · rw [Option.some.injEq] at h
            subst h
            simp only [sentSchedule_fleeing]
            split <;> simp [sentMove_fleeing, hB]
        · rw [Option.some.injEq] at h
          subst h
          simp [sentSchedule_fleeing, hB]

/-- Witness for C9: a motionless entity with nothing to flee or chase takes
the stop-and-wander branch; the (empty) fleeing set is unchanged. -/
theorem c9_reevaluate_preserves_fleeing_witness :
    ((reevaluateBehavior ⟨0, 5, some (1, 0), fun _ => ((0, 0), (0, 0))⟩
        ⟨(0, 0), (0, 0), (0, 0), (0, 0), 0, none, [], none, [], false, 0, []⟩).getD
      (⟨(0, 0), (0, 0), (0, 0), (0, 0), 0, none, [], none, [], false, 0, []⟩,
       false)).1.fleeing = [] :=
  c9_reevaluate_preserves_fleeing
    ⟨0, 5, some (1, 0), fun _ => ((0, 0), (0, 0))⟩
    ⟨(0, 0), (0, 0), (0, 0), (0, 0), 0, none, [], none, [], false, 0, []⟩
    _ rfl

/-! ## EntityServlet event dispatch (src/internals/entity_servlet.py) -/

/-- Removal `del d[k]` of the (unique) binding for k. -/
def assocRemove {κ α : Type} [DecidableEq κ] : List (κ × α) → κ → List (κ × α)
  | [], _ => []
  | (k0, v0) :: rest, k => if k0 = k then rest else (k0, v0) :: assocRemove rest k

/-- Entity.forget: drop the remembered distance for a guid (idempotent). -/
def ent_forget (e : Ent) (guid : List Char) : Ent :=
  { e with remembered := assocRemove e.remembered guid }

/-- Per-location worker state: the location address string, the tracked
simulated players keyed by guid, the entity list, and whether the despawn
timer is armed. -/
structure ServletState where
  locationStr : List Char
  players : List (List Char × SimPlayer)
  entities : List Ent
  ttl : Bool
  deriving DecidableEq, Repr

/-- EntityServlet.on_enter: cancel a pending despawn timer (demoting the
entry to a re-entry); on a true initial entry spawn the location's initial
entities — `spawned` is that batch, Modelled from the spec:
Location.has_entities / get_entities_to_spawn and the placement draw live
in internals/locations.py, which is not under src/ (empty when the
location declares none) — otherwise re-announce existing entities (a
broadcast only); finally register the joining guid as a fresh
SimulatedPlayer. -/
def on_enter (spawned : List Ent) (st : ServletState) (message_data : List Char)
    (initial : Bool) : ServletState :=
  let initial' := if st.ttl then false else initial
  let st1 : ServletState := { st with ttl := false }
  let st2 := if initial' then { st1 with entities := st1.entities ++ spawned } else st1
  let guid := (splitOnChar ':' message_data).headD []
  { st2 with players := assocInsert st2.players guid (SimPlayer.mk guid (0, 0) (0, 0) false) }

/-- EntityServlet.on_leave: every entity forgets the guid, the simulated
player is deleted (`del self.players[user]` — KeyError when absent), and
the despawn timer is armed when no players remain. -/
def on_leave (st : ServletState) (user : List Char) : Option ServletState :=
  let ents := st.entities.map (fun e => ent_forget e user)
  match assocLookup st.players user with
  | none => none
  | some _ =>
      let players' := assocRemove st.players user
      some { st with entities := ents, players := players',
                     ttl := if players' = [] then true else st.ttl }

/-- EntityServlet.spawn_drop: parse `guid:item:x:y` and spawn an ItemEntity
at the stated pixel coordinates.  Modelled from the spec: ItemEntity
(internals/entities/items.py is not under src/) is a non-animated Entity
for a dropped item; its random 8-hex id suffix is abstracted to the item
code after the entity marker. -/
def spawn_drop (st : ServletState) (command : List Char) : Option ServletState :=
  match splitOnChar ':' command with
  | [_guid, item, xs, ys] =>
      match parseInt xs, parseInt ys with
      | some x, some y =>
          some { st with entities := st.entities ++
                   [Ent.mk (entity_guid_mark ++ item) ((x : ℚ), (y : ℚ)) []] }
      | _, _ => none
  | _ => none

def MESSAGES_TO_IGNORE : List (List Char) :=
  ["spa".data, "epu".data]

def MESSAGES_TO_INSPECT : List (List Char) :=
  ["del".data, "cha".data]

/-- Forward a bus message to every tracked entity's handle_message. -/
def forwardAll : List Ent → List Char → Option (List Ent)
  | [], _ => some []
  | e :: es, msg =>
      match handle_message e msg with
      | none => none
      | some (e', _events) => (forwardAll es msg).map (fun es' => e' :: es')

/-- EntityServlet._handle_event: split the payload at the first '>' into
location and message (ValueError without one); global enter/drop messages
for this location take their own paths and return; `spa`/`epu` echoes and
'@'-prefixed `del`/`cha` subjects are ignored; a `del` runs player-leave; a
`loc` updates the simulated player through the UNGUARDED lookup
`self.players[guid]` (KeyError when the guid is untracked); every surviving
message is then forwarded to every entity. -/
def handle_event (spawned : List Ent) (st : ServletState)
    (channel data : List Char) : Option ServletState :=
  match splitFirst '>' data with
  | none => none
  | some (location, full_message_data) =>
      if channel = "global::enter".data ∧ location = st.locationStr then
        some (on_enter spawned st full_message_data false)
      else if channel = "global::drop".data ∧ location = st.locationStr then
        spawn_drop st full_message_data
      else
        let message_type := full_message_data.take 3
        let message_data := full_message_data.drop 3
        if message_type ∈ MESSAGES_TO_IGNORE ∨
            (message_type ∈ MESSAGES_TO_INSPECT ∧ "@".data.isPrefixOf message_data) then
          some st
        else
          let stepped : Option ServletState :=
            if message_type = "del".data then on_leave st message_data
            else if message_type = "loc".data then
              match splitOnChar ':' message_data with
              | [guid, xs, ys, xvs, yvs] =>
                  match assocLookup st.players guid with
                  | none => none
                  | some p =>
                      match parseInt xs, parseInt ys, parseInt xvs, parseInt yvs with
                      | some x, some y, some xv, some yv =>
                          some { st with players :=
                                   assocInsert st.players guid (post_velocity p x y xv yv) }
                      | _, _, _, _ => none
              | _ => none
            else some st
          match stepped with
          | none => none
          | some st' =>
              match forwardAll st'.entities full_message_data with
              | none => none
              | some ents' => some { st' with entities := ents' }

lemma splitFirst_not_mem (sep : Char) :
    ∀ (a b : List Char), sep ∉ a → splitFirst sep (a ++ sep :: b) = some (a, b) := by
  intro a
  induction a with
  | nil => intro b _; simp [splitFirst]
  | cons c tl ih =>
      intro b hmem
      have hc : ¬ (c = sep) := fun hc => hmem (by simp [hc])
      simp only [List.cons_append, splitFirst, if_neg hc, List.append_eq,
        ih b (fun hs => hmem (by simp [hs]))]
      rfl

lemma splitOnChar_ne_nil (sep : Char) : ∀ (cs : List Char), splitOnChar sep cs ≠ [] := by
  intro cs
  cases cs with
  | nil => simp [splitOnChar]
  | cons c rest =>
      simp only [splitOnChar]
      by_cases hc : c = sep
      · simp [hc]
      · rw [if_neg hc]
        cases hrec : splitOnChar sep rest <;> simp

lemma splitOnChar_not_mem (sep : Char) :
    ∀ (a b : List Char), sep ∉ a →
      splitOnChar sep (a ++ sep :: b) = a :: splitOnChar sep b := by
  intro a
  induction a with
  | nil => intro b _; simp [splitOnChar]
  | cons c tl ih =>
      intro b hmem
      have hc : ¬ (c = sep) := fun hc => hmem (by simp [hc])
      rw [List.cons_append, splitOnChar, if_neg hc]
      rw [ih b (fun hs => hmem (by simp [hs]))]

lemma assocLookup_insert {κ α : Type} [DecidableEq κ] (d : List (κ × α)) (k : κ) (v : α) :
    assocLookup (assocInsert d k v) k = some v := by
  induction d with
  | nil => simp [assocInsert, assocLookup]
  | cons p tl ih =>
      obtain ⟨k0, v0⟩ := p
      by_cases hk : k0 = k
      · simp [assocInsert, assocLookup, hk]
      · simp [assocInsert, assocLookup, hk, ih]

/-- C10: dispatching a location-scoped 'loc' bus message is only safe when
the subject guid is a tracked simulated player: with the guid untracked the
unguarded `self.players[guid]` lookup raises KeyError (`none`) instead of
ignoring the message or creating a player; with the guid tracked (as
on_enter leaves it — third conjunct) the dead-reckoning state is updated. -/
theorem c10_loc_requires_registered (spawned : List Ent) (st : ServletState)
    (channel guid : List Char)
    (hch1 : channel ≠ "global::enter".data)
    (hch2 : channel ≠ "global::drop".data)
    (hloc : '>' ∉ st.locationStr)
    (hguid : ':' ∉ guid) :
    (assocLookup st.players guid = none →
      handle_event spawned st channel
          (st.locationStr ++ '>' :: ("loc".data ++ (guid ++ ':' :: "10:20:1:0".data)))
        = none) ∧
    (∀ p, assocLookup st.players guid = some p → st.entities = [] →
      handle_event spawned st channel
          (st.locationStr ++ '>' :: ("loc".data ++ (guid ++ ':' :: "10:20:1:0".data)))
        = some { st with players :=
                   assocInsert st.players guid (post_velocity p 10 20 1 0) }) ∧
    (∀ m initial,
      assocLookup (on_enter spawned st m initial).players
          ((splitOnChar ':' m).headD [])
        = some (SimPlayer.mk ((splitOnChar ':' m).headD []) (0, 0) (0, 0) false)) := by
  have h1 : ¬ (channel = "global::enter".data ∧ st.locationStr = st.locationStr) :=
    fun hc => hch1 hc.1
  have h2 : ¬ (channel = "global::drop".data ∧ st.locationStr = st.locationStr) :=
    fun hc => hch2 hc.1
  have htake : ("loc".data ++ (guid ++ ':' :: "10:20:1:0".data)).take 3 = "loc".data :=
    List.take_left' (by decide)
  have hdrop : ("loc".data ++ (guid ++ ':' :: "10:20:1:0".data)).drop 3
      = guid ++ ':' :: "10:20:1:0".data :=
    List.drop_left' (by decide)
  have hign : ¬ ("loc".data ∈ MESSAGES_TO_IGNORE ∨
      ("loc".data ∈ MESSAGES_TO_INSPECT ∧
        "@".data.isPrefixOf (guid ++ ':' :: "10:20:1:0".data))) := by
    rintro (hmem | ⟨hmem, _⟩) <;> revert hmem <;> decide
  have hsplit : splitOnChar ':' (guid ++ ':' :: "10:20:1:0".data)
      = guid :: ["10".data, "20".data, "1".data, "0".data] := by
    rw [splitOnChar_not_mem ':' guid _ hguid,
        show splitOnChar ':' "10:20:1:0".data
          = ["10".data, "20".data, "1".data, "0".data] from by decide]
  refine ⟨?_, ?_, ?_⟩
  · intro hnone
    simp only [handle_event, splitFirst_not_mem '>' st.locationStr _ hloc, h1, h2,
      if_false, htake, hdrop, hign, hsplit, hnone,
      show ("loc".data = "del".data) = False from by decide,
      show ("loc".data = "loc".data) = True from by decide, if_true, ite_false, ite_true]
    rw [if_neg (fun hc => hch1 hc.1), if_neg (fun hc => hch2 hc.1)]
  · intro p hp hent
    simp only [handle_event, splitFirst_not_mem '>' st.locationStr _ hloc, h1, h2,
      if_false, htake, hdrop, hign, hsplit, hp, hent,
      show parseInt "10".data = some 10 from by decide,
      show parseInt "20".data = some 20 from by decide,
      show parseInt "1".data = some 1 from by decide,
      show parseInt "0".data = some 0 from by decide,
      show ("loc".data = "del".data) = False from by decide,
      show ("loc".data = "loc".data) = True from by decide, if_true, ite_false, ite_true,
      forwardAll]
    rw [if_neg (fun hc => hch1 hc.1), if_neg (fun hc => hch2 hc.1)]
  · intro m initial
    simp only [on_enter]
    split <;> exact assocLookup_insert _ _ _

/-- Witness for C10: in a worker for location o:0:0 with no tracked
players, a location-scoped 'loc' message for guid p1 raises KeyError. -/
theorem c10_loc_requires_registered_witness :
    handle_event [] ⟨"o:0:0".data, [], [], false⟩ "location::pe::o:0:0".data
        ("o:0:0".data ++ '>' :: ("loc".data ++ ("p1".data ++ ':' :: "10:20:1:0".data)))
      = none :=
  (c10_loc_requires_registered [] ⟨"o:0:0".data, [], [], false⟩
      "location::pe::o:0:0".data "p1".data (by decide) (by decide) (by decide)
      (by decide)).1 rfl
